import Mathlib

/-!
Verification development for the quizbaaji backend (quiz tournament platform).

The definitions below are shallow embeddings of the stateful logic in
src/backend/quiz_routes.py (quiz session engine and tournament settlement)
and src/backend/websocket_manager.py (connection registry and quiz timer).

Conventions of the embedding:
- identities (user ids, session ids, tournament ids, websocket connections)
  are natural numbers;
- money amounts are exact rationals; the Python source computes with floats,
  the rational model reflects the intended real arithmetic of the formulas;
- timestamps are natural numbers (seconds);
- the MongoDB document store is an explicit record of association lists;
- Python status strings become inductive types;
- fallible route handlers return Except values carrying the HTTP error that
  the source raises.
-/

namespace Quizbaaji

/-- Money amounts, modelled as exact rationals. -/
abbrev Money := ℚ

/-- Session lifecycle states, from QuizSessionStatus in models.py
(started, completed, abandoned). -/
inductive SessionStatus where
  | started
  | completed
  | abandoned
  deriving Repr, DecidableEq

/-- Tournament lifecycle states, from TournamentStatus in models.py. -/
inductive TournamentStatus where
  | upcoming
  | active
  | completed
  | cancelled
  deriving Repr, DecidableEq

/-- A per-session question snapshot, as built by start_quiz
(quiz_routes.py lines 82-89): options plus the recomputed correct index. -/
structure Question where
  question_text : String
  options : List String
  correct_answer : ℕ
  explanation : String
  deriving Repr, DecidableEq

/-- One recorded answer slot, as written by submit_answer
(quiz_routes.py lines 186-190). -/
structure AnswerRecord where
  answer : ℕ
  time_taken : ℕ
  deriving Repr, DecidableEq

/-- A quiz session document, as created by start_quiz
(quiz_routes.py lines 92-106). -/
structure QuizSession where
  user_id : ℕ
  tournament_id : ℕ
  questions : List Question
  answers : List (Option AnswerRecord)
  current_question : ℕ
  score : ℕ
  start_time : ℕ
  end_time : Option ℕ
  status : SessionStatus
  time_remaining : ℕ
  time_taken : Option ℕ
  deriving Repr, DecidableEq

/-- Tournament document fields used by the settlement engine. -/
structure Tournament where
  name : String
  entry_fee : Money
  status : TournamentStatus
  deriving Repr, DecidableEq

/-- A tournament entry document (TournamentEntry in models.py): rank and
prize_amount stay unset until settlement writes them. -/
structure TournamentEntry where
  id : ℕ
  tournament_id : ℕ
  user_id : ℕ
  joined_at : ℕ
  quiz_session_id : Option ℕ
  final_score : Option ℕ
  rank : Option ℕ
  prize_amount : Option Money
  deriving Repr, DecidableEq

/-- A wallet transaction record, as inserted by calculate_tournament_results
(quiz_routes.py lines 454-463). -/
structure WalletTxn where
  user_id : ℕ
  txn_kind : String
  amount : Money
  tournament_id : ℕ
  deriving Repr, DecidableEq

/-- The durable store: the collections touched by the embedded handlers,
plus the list of settlement tasks spawned via asyncio.create_task
(quiz_routes.py line 299). -/
structure DB where
  tournaments : List (ℕ × Tournament)
  quiz_sessions : List (ℕ × QuizSession)
  tournament_entries : List TournamentEntry
  wallet_balances : List (ℕ × Money)
  wallet_transactions : List WalletTxn
  scheduled_settlements : List ℕ
  deriving Repr, DecidableEq

/-- HTTP errors raised by the route handlers (fastapi HTTPException with
status 404, 400 or 500 and a detail string). -/
inductive HTTPError where
  | notFound (detail : String)
  | badRequest (detail : String)
  | serverError (detail : String)
  deriving Repr, DecidableEq

/-- The HTTP status code carried by an error. -/
def HTTPError.statusCode : HTTPError → ℕ
  | .notFound _ => 404
  | .badRequest _ => 400
  | .serverError _ => 500

/-- The detail string carried by an error. -/
def HTTPError.detail : HTTPError → String
  | .notFound d => d
  | .badRequest d => d
  | .serverError d => d

/-- The blanket handler wrapped around every quiz route body:
try ... except Exception as e: raise HTTPException(500, str(e)).
fastapi HTTPException derives from Exception, so the 404/400 raised inside
the try block is caught here and re-raised with status 500 (the str(e)
rendering of the caught exception is abstracted to its detail string). -/
def wrapRoute {α : Type} : Except HTTPError α → Except HTTPError α
  | .ok a => .ok a
  | .error e => .error (.serverError e.detail)

/-- find_one on quiz_sessions matching both _id and user_id
(quiz_routes.py lines 163-166). -/
def findSession (db : DB) (session_id user_id : ℕ) : Option QuizSession :=
  (db.quiz_sessions.find? (fun p => p.1 == session_id && p.2.user_id == user_id)).map (·.2)

/-- Placeholder question used as the default of a guarded list access. -/
def defaultQuestion : Question := ⟨"", [], 0, ""⟩

/-- The padding loop of submit_answer (quiz_routes.py lines 178-180):
while len(answers) <= question_index: answers.append(None). -/
def padAnswers (answers : List (Option AnswerRecord)) (idx : ℕ) : List (Option AnswerRecord) :=
  answers ++ List.replicate (idx + 1 - answers.length) none

/-- The response body assembled by submit_answer (quiz_routes.py lines 213-219). -/
structure AnswerResponse where
  is_correct : Bool
  correct_answer : ℕ
  explanation : String
  current_score : ℕ
  question_index : ℕ
  deriving Repr, DecidableEq

/-- The session-level core of submit_answer (quiz_routes.py lines 171-210):
validation, immutable answer recording, score update, pointer advance.
The returned Bool is the last-question check of line 229 that triggers
completion. -/
def submitAnswerSession (s : QuizSession) (question_index answer time_taken : ℕ) :
    Except HTTPError (QuizSession × AnswerResponse × Bool) :=
  if s.status ≠ SessionStatus.started then
    .error (.badRequest "Quiz session is not active")
  else if s.questions.length ≤ question_index then
    .error (.badRequest "Invalid question index")
  else if ((padAnswers s.answers question_index).getD question_index none).isSome then
    .error (.badRequest "Question already answered")
  else
      let answers2 := (padAnswers s.answers question_index).set question_index (some ⟨answer, time_taken⟩)
      let question := s.questions.getD question_index defaultQuestion
      let is_correct := answer == question.correct_answer
      let score := if is_correct then s.score + 1 else s.score
      let s2 := { s with answers := answers2, score := score,
                         current_question := question_index + 1 }
      .ok (s2,
           ⟨is_correct, question.correct_answer, question.explanation, score, question_index⟩,
           s.questions.length - 1 ≤ question_index)

/-- Results dictionary computed by complete_quiz_internal
(quiz_routes.py lines 287-293). -/
structure QuizResults where
  final_score : ℕ
  total_questions : ℕ
  time_taken : ℕ
  deriving Repr, DecidableEq

/-- Return value of complete_quiz_internal: the already-completed branch
returns only a message (line 263); the normal branch returns the message
together with the computed results (line 301). -/
inductive CompleteResponse where
  | alreadyCompleted
  | completed (results : QuizResults)
  deriving Repr, DecidableEq

/-- The results carried by a completion response, if any. -/
def CompleteResponse.resultsOf : CompleteResponse → Option QuizResults
  | .alreadyCompleted => none
  | .completed r => some r

/-- complete_quiz_internal (quiz_routes.py lines 251-305): fetch, early
return when already completed, otherwise stamp end time and elapsed
duration, write the final score to the entry, and spawn the delayed
settlement task for the owning tournament. -/
def complete_quiz_internal (db : DB) (session_id user_id now : ℕ) :
    Except HTTPError (DB × CompleteResponse) :=
  match findSession db session_id user_id with
  | none => .error (.notFound "Quiz session not found")
  | some s =>
    if s.status = SessionStatus.completed then
      .ok (db, .alreadyCompleted)
    else
      let time_taken := now - s.start_time
      let db1 := { db with quiz_sessions := db.quiz_sessions.map (fun (p : ℕ × QuizSession) =>
        if p.1 == session_id then
          (p.1, { p.2 with status := SessionStatus.completed, end_time := some now, time_taken := some time_taken })
        else p) }
      let db2 := { db1 with tournament_entries := db1.tournament_entries.map (fun (e : TournamentEntry) =>
        if e.quiz_session_id == some session_id then { e with final_score := some s.score }
        else e) }
      let db3 := { db2 with scheduled_settlements := db2.scheduled_settlements ++ [s.tournament_id] }
      .ok (db3, .completed ⟨s.score, s.questions.length, time_taken⟩)

/-- submit_answer before the blanket exception handler
(quiz_routes.py lines 158-240): fetch the session, run the session-level
core, write the updated fields back, and on the last question call
complete_quiz_internal synchronously. -/
def submit_answer_inner (db : DB) (session_id user_id question_index answer time_taken now : ℕ) :
    Except HTTPError (DB × AnswerResponse) :=
  match findSession db session_id user_id with
  | none => .error (.notFound "Quiz session not found")
  | some s =>
    match submitAnswerSession s question_index answer time_taken with
    | .error e => .error e
    | .ok (s2, resp, completes) =>
      let db1 := { db with quiz_sessions := db.quiz_sessions.map (fun (p : ℕ × QuizSession) =>
        if p.1 == session_id then
          (p.1, { p.2 with answers := s2.answers, score := s2.score, current_question := question_index + 1 })
        else p) }
      if completes then
        match complete_quiz_internal db1 session_id user_id now with
        | .error e => .error e
        | .ok (db2, _) => .ok (db2, resp)
      else .ok (db1, resp)

/-- The full submit_answer route, with the except-Exception wrapper of
quiz_routes.py lines 242-244 applied. -/
def submit_answer (db : DB) (session_id user_id question_index answer time_taken now : ℕ) :
    Except HTTPError (DB × AnswerResponse) :=
  wrapRoute (submit_answer_inner db session_id user_id question_index answer time_taken now)

/-! Settlement engine: calculate_tournament_results, quiz_routes.py lines 408-499. -/

/-- The final score of an entry, defaulting to zero (only applied to entries
whose final_score is present). -/
def scoreVal (e : TournamentEntry) : ℕ := e.final_score.getD 0

/-- The find filter of line 412-415: entries of the tournament whose
final_score exists. -/
def eligibleEntries (db : DB) (tid : ℕ) : List TournamentEntry :=
  db.tournament_entries.filter (fun e => e.tournament_id == tid && e.final_score.isSome)

/-- Stable descending insertion: an element goes in front of the first
element whose score does not exceed its own. -/
def insertByScoreDesc (e : TournamentEntry) : List TournamentEntry → List TournamentEntry
  | [] => [e]
  | x :: xs => if scoreVal x ≤ scoreVal e then e :: x :: xs else x :: insertByScoreDesc e xs

/-- Model of the MongoDB cursor sort("final_score", -1) of line 415:
a stable descending sort on final_score. MongoDB specifies only the score
ordering; entries with equal score keep the order in which the store
returns them (a single-key sort applies no further tiebreak). -/
def sortByScoreDesc (l : List TournamentEntry) : List TournamentEntry :=
  l.foldr insertByScoreDesc []

/-- Lines 424-433: total_collected = len(entries) * entry_fee,
profit = total_collected * 0.6, prizes = [profit*0.5, profit*0.3, profit*0.2]. -/
def settlementPrizes (k : ℕ) (fee : Money) : List Money :=
  let total_collected : Money := (k : ℚ) * fee
  let profit := total_collected * 0.6
  [profit * 0.5, profit * 0.3, profit * 0.2]

/-- Line 438: prize_amount = prizes[i] if i < 3 else 0. -/
def prizeForPosition (prizes : List Money) (i : ℕ) : Money :=
  if i < 3 then prizes.getD i 0 else 0

/-- The enumerate loop header of line 436: each sorted entry paired with its
rank (index + 1) and its prize for that position. -/
def settlementAssignments (entries : List TournamentEntry) (fee : Money) :
    List (TournamentEntry × ℕ × Money) :=
  let prizes := settlementPrizes entries.length fee
  entries.enum.map (fun p => (p.2, p.1 + 1, prizeForPosition prizes p.1))

/-- The wallet update of lines 448-451: an atomic increment of the balance. -/
def creditWallet (l : List (ℕ × Money)) (u : ℕ) (amt : Money) : List (ℕ × Money) :=
  l.map (fun p => if p.1 == u then (p.1, p.2 + amt) else p)

/-- The loop body of lines 436-474: write rank and prize to the entry, and
when the prize is positive credit the wallet and insert a transaction. -/
def applyAssignment (tid : ℕ) (db : DB) (a : TournamentEntry × ℕ × Money) : DB :=
  let db1 := { db with tournament_entries := db.tournament_entries.map (fun x =>
    if x.id == a.1.id then { x with rank := some a.2.1, prize_amount := some a.2.2 } else x) }
  if 0 < a.2.2 then
    { db1 with wallet_balances := creditWallet db1.wallet_balances a.1.user_id a.2.2,
               wallet_transactions :=
                 db1.wallet_transactions ++ [⟨a.1.user_id, "credit", a.2.2, tid⟩] }
  else db1

/-- calculate_tournament_results (quiz_routes.py lines 408-499). There is no
settlement flag or status check anywhere in the function: every invocation
re-sorts the entries, re-writes ranks and prizes, and re-credits wallets;
the tournament status is set to completed at the end but never consulted. -/
def calculate_tournament_results (db : DB) (tid : ℕ) : DB :=
  let entries := sortByScoreDesc (eligibleEntries db tid)
  if entries.isEmpty then db
  else
    match (db.tournaments.find? (fun p => p.1 == tid)).map (·.2) with
    | none => db
    | some t =>
      let db1 := (settlementAssignments entries t.entry_fee).foldl (applyAssignment tid) db
      { db1 with tournaments := db1.tournaments.map (fun p =>
          if p.1 == tid then (p.1, { p.2 with status := TournamentStatus.completed }) else p) }

/-- Wallet balance of a user in the store, defaulting to zero. -/
def walletOf (db : DB) (u : ℕ) : Money :=
  ((db.wallet_balances.find? (fun p => p.1 == u)).map (·.2)).getD 0

/-- Sum of the prizes paid out by a settlement over k finishers, position by
position (mirrors the prize branch of the loop). -/
def distributedTotal (k : ℕ) (fee : Money) : Money :=
  ((List.range k).map (prizeForPosition (settlementPrizes k fee))).sum

/-! Connection registry: WebSocketManager, websocket_manager.py lines 11-98.
Websocket objects are identified by natural numbers; the Python sets become
duplicate-free lists (insertion checks membership, removal filters). -/

/-- Connection role, from the user_role parameter of connect_user. -/
inductive Role where
  | user
  | admin
  deriving Repr, DecidableEq

/-- The three connection maps of WebSocketManager.__init__:
user_connections, tournament_connections, admin_connections. -/
structure RegistryState where
  user_connections : List (ℕ × ℕ)
  tournament_connections : List (ℕ × List ℕ)
  admin_connections : List ℕ
  deriving Repr, DecidableEq

/-- Dictionary lookup self.user_connections[user_id]. -/
def lookupConn (s : RegistryState) (u : ℕ) : Option ℕ :=
  (s.user_connections.find? (fun p => p.1 == u)).map (·.2)

/-- Dictionary assignment self.user_connections[user_id] = websocket
(overwrite when the key exists, append otherwise). -/
def setConn (l : List (ℕ × ℕ)) (u ws : ℕ) : List (ℕ × ℕ) :=
  if l.any (fun p => p.1 == u) then
    l.map (fun p => if p.1 == u then (p.1, ws) else p)
  else l ++ [(u, ws)]

/-- Set insertion (Python set.add). -/
def insertSetElem (l : List ℕ) (ws : ℕ) : List ℕ :=
  if ws ∈ l then l else l ++ [ws]

/-- Set removal (Python set.discard): the element is gone entirely. -/
def removeSetElem (l : List ℕ) (ws : ℕ) : List ℕ :=
  l.filter (fun x => x ≠ ws)

/-- connect_user (websocket_manager.py lines 22-45): a prior connection for
the same identity is closed (a socket-level effect with no registry state),
then the user map entry is overwritten and an admin connection is added to
the admin set. Nothing removes the prior websocket from the admin set or
from any tournament room. -/
def connect_user (s : RegistryState) (u : ℕ) (role : Role) (ws : ℕ) : RegistryState :=
  let s1 := { s with user_connections := setConn s.user_connections u ws }
  if role = Role.admin then
    { s1 with admin_connections := insertSetElem s1.admin_connections ws }
  else s1

/-- disconnect_user (websocket_manager.py lines 47-63): when the user has a
live connection, remove it from the admin set, from every tournament room,
and delete the user map entry. -/
def disconnect_user (s : RegistryState) (u : ℕ) : RegistryState :=
  match lookupConn s u with
  | none => s
  | some ws =>
    { user_connections := s.user_connections.filter (fun p => p.1 ≠ u),
      admin_connections := removeSetElem s.admin_connections ws,
      tournament_connections := s.tournament_connections.map (fun p => (p.1, removeSetElem p.2 ws)) }

/-- join_tournament_room (websocket_manager.py lines 65-84): fails silently
(returns false) without a live connection; otherwise adds the websocket to
the room set, creating the room if needed. -/
def join_tournament_room (s : RegistryState) (u tid : ℕ) : RegistryState × Bool :=
  match lookupConn s u with
  | none => (s, false)
  | some ws =>
    let rooms :=
      if s.tournament_connections.any (fun p => p.1 == tid) then
        s.tournament_connections.map (fun p => if p.1 == tid then (p.1, insertSetElem p.2 ws) else p)
      else s.tournament_connections ++ [(tid, [ws])]
    ({ s with tournament_connections := rooms }, true)

/-- leave_tournament_room (websocket_manager.py lines 86-98): removes the
websocket from the room and prunes the room when it becomes empty. -/
def leave_tournament_room (s : RegistryState) (u tid : ℕ) : RegistryState :=
  match lookupConn s u with
  | none => s
  | some ws =>
    let rooms := s.tournament_connections.map (fun p => if p.1 == tid then (p.1, removeSetElem p.2 ws) else p)
    { s with tournament_connections := rooms.filter (fun p => !(p.1 == tid && p.2.isEmpty)) }

/-- A websocket is live when some user maps to it (decidable over the
finite user map). -/
def isLive (s : RegistryState) (ws : ℕ) : Bool :=
  s.user_connections.any (fun p => p.2 == ws)

/-- The member list of a tournament room, empty when the room is absent. -/
def roomMembers (s : RegistryState) (tid : ℕ) : List ℕ :=
  ((s.tournament_connections.find? (fun p => p.1 == tid)).map (·.2)).getD []

/-! Quiz timer: quiz_timer, websocket_manager.py lines 127-155, and the
in-memory session registry of start_quiz_session (lines 100-125). -/

/-- In-memory websocket quiz session status: the strings active and
completed of websocket_manager.py. -/
inductive WSStatus where
  | active
  | completed
  deriving Repr, DecidableEq

/-- The in-memory quiz session record of start_quiz_session (lines 105-112). -/
structure WSQuizSession where
  user_id : ℕ
  current_question : ℕ
  total_questions : ℕ
  time_remaining : ℕ
  status : WSStatus
  deriving Repr, DecidableEq

/-- A push message frame: its type string and, for quiz_ended, the reason. -/
structure PushMsg where
  msg_kind : String
  reason : Option String
  deriving Repr, DecidableEq

/-- The countdown loop of quiz_timer (lines 134-145): while time remains
and the session is active, decrement and push a time_update every five
seconds. The fuel argument bounds the iterations; it is instantiated with
the initial time_remaining, which the sequential loop never exceeds. -/
def timerGo : ℕ → WSQuizSession → WSQuizSession × List PushMsg
  | 0, ws => (ws, [])
  | fuel + 1, ws =>
    if 0 < ws.time_remaining ∧ ws.status = WSStatus.active then
      let ws1 := { ws with time_remaining := ws.time_remaining - 1 }
      let msgs := if ws1.time_remaining % 5 == 0 then [⟨"time_update", none⟩] else []
      let r := timerGo fuel ws1
      (r.1, msgs ++ r.2)
    else (ws, [])

/-- quiz_timer (websocket_manager.py lines 127-155): run the countdown,
then, if the in-memory session is still active, mark it completed and push
a quiz_ended message with reason time_up. The function reads and writes
only the in-memory session and pushes messages: it performs no database
access, never calls complete_quiz_internal, and schedules no settlement. -/
def quiz_timer (ws : WSQuizSession) : WSQuizSession × List PushMsg :=
  let r := timerGo ws.time_remaining ws
  if r.1.status = WSStatus.active then
    ({ r.1 with status := WSStatus.completed }, r.2 ++ [⟨"quiz_ended", some "time_up"⟩])
  else r

/-- Combined system state: the durable store plus the in-memory websocket
quiz session registry. -/
structure World where
  db : DB
  ws_sessions : List (ℕ × WSQuizSession)
  deriving Repr, DecidableEq

/-- The effect of the quiz_timer task for a session on the combined state:
only the in-memory session entry changes, because the source function
touches nothing else. -/
def runQuizTimer (w : World) (session_id : ℕ) : World × List PushMsg :=
  match (w.ws_sessions.find? (fun p => p.1 == session_id)).map (·.2) with
  | none => (w, [])
  | some ws =>
    let r := quiz_timer ws
    ({ w with ws_sessions := w.ws_sessions.map (fun p =>
        if p.1 == session_id then (p.1, r.1) else p) }, r.2)

/-! Scoring invariant helpers and the anti-cheat option shuffle. -/

/-- Whether a recorded answer slot matches the correct index of its
question (an absent slot matches nothing). -/
def slotMatches : Option AnswerRecord → Question → Bool
  | some r, q => r.answer == q.correct_answer
  | none, _ => false

/-- The number of recorded answer slots whose chosen option equals the
correct-answer index of the corresponding question (the quantity that
get_quiz_results, quiz_routes.py lines 323-344, recomputes). -/
def matchCount : List (Option AnswerRecord) → List Question → ℕ
  | a :: as, q :: qs => (if slotMatches a q then 1 else 0) + matchCount as qs
  | _, _ => 0

/-- The session document created by start_quiz (quiz_routes.py lines
92-106): empty answers, zero score, status started. -/
def initialSession (user_id tournament_id : ℕ) (qs : List Question) (now duration_seconds : ℕ) :
    QuizSession :=
  { user_id := user_id, tournament_id := tournament_id, questions := qs,
    answers := [], current_question := 0, score := 0, start_time := now,
    end_time := none, status := SessionStatus.started,
    time_remaining := duration_seconds, time_taken := none }

/-- Run a sequence of submit-answer requests against a session: successful
submissions update the session, failed ones leave it unchanged (the source
raises before any write). Each triple is (question_index, answer, time_taken). -/
def runSubmissions (s : QuizSession) (subs : List (ℕ × ℕ × ℕ)) : QuizSession :=
  subs.foldl (fun st sub =>
    match submitAnswerSession st sub.1 sub.2.1 sub.2.2 with
    | .ok r => r.1
    | .error _ => st) s

/-- The correct-index recomputation of start_quiz (quiz_routes.py line 80):
new_correct_index = options.index(original_options[correct_answer]), where
options is the shuffled copy. -/
def recomputeCorrectIndex (shuffled original : List String) (correct_answer : ℕ) : ℕ :=
  shuffled.indexOf (original.getD correct_answer "")

/-! Concrete test fixtures used by the closed theorems below. -/

/-- A tournament entry with the given identity, owner, join time and final
score; rank and prize unset as before settlement. -/
def entryOf (eid tid uid joined : ℕ) (score : Option ℕ) : TournamentEntry :=
  ⟨eid, tid, uid, joined, none, score, none, none⟩

/-- A tournament with entry fee 39 (the deployed ENTRY_FEE_RUPEES default). -/
def tournamentT : Tournament := ⟨"Weekly Quiz", 39, TournamentStatus.active⟩

/-- A tournament with entry fee 0 (admin tournament creation accepts any
entry_fee from the request body, with no positivity validation). -/
def tournamentZero : Tournament := ⟨"Free Quiz", 0, TournamentStatus.active⟩

/-- Store with two finishers of tournament 7: user 11 scored 20, user 12
scored 10. -/
def dbTwo : DB :=
  { tournaments := [(7, tournamentT)],
    quiz_sessions := [],
    tournament_entries := [entryOf 1 7 11 1 (some 20), entryOf 2 7 12 2 (some 10)],
    wallet_balances := [(11, 0), (12, 0)],
    wallet_transactions := [],
    scheduled_settlements := [] }

/-- Store with the five finishers of the specification scenario: fee 39,
scores [20, 18, 18, 15, 10], joined in listed order. -/
def dbFive : DB :=
  { tournaments := [(7, tournamentT)],
    quiz_sessions := [],
    tournament_entries :=
      [entryOf 1 7 11 1 (some 20), entryOf 2 7 12 2 (some 18), entryOf 3 7 13 3 (some 18),
       entryOf 4 7 14 4 (some 15), entryOf 5 7 15 5 (some 10)],
    wallet_balances := [(11, 0), (12, 0), (13, 0), (14, 0), (15, 0)],
    wallet_transactions := [],
    scheduled_settlements := [] }

/-- Store with two finishers tied at score 18 where the store returns the
later joiner (joined_at 10) before the earlier joiner (joined_at 2). -/
def dbTie : DB :=
  { tournaments := [(7, tournamentT)],
    quiz_sessions := [],
    tournament_entries := [entryOf 1 7 21 10 (some 18), entryOf 2 7 22 2 (some 18)],
    wallet_balances := [(21, 0), (22, 0)],
    wallet_transactions := [],
    scheduled_settlements := [] }

/-- Store with a single finisher of the fee-39 tournament. -/
def dbOne : DB :=
  { tournaments := [(7, tournamentT)],
    quiz_sessions := [],
    tournament_entries := [entryOf 1 7 11 1 (some 20)],
    wallet_balances := [(11, 0)],
    wallet_transactions := [],
    scheduled_settlements := [] }

/-- Store with a single finisher of the fee-0 tournament. -/
def dbZeroFee : DB :=
  { tournaments := [(7, tournamentZero)],
    quiz_sessions := [],
    tournament_entries := [entryOf 1 7 11 1 (some 20)],
    wallet_balances := [(11, 0)],
    wallet_transactions := [],
    scheduled_settlements := [] }

/-- A two-question quiz: first question has correct index 1. -/
def q0 : Question := ⟨"Q1", ["a", "b", "c", "d"], 1, "because"⟩

/-- Second question of the fixture quiz: correct index 2. -/
def q1 : Question := ⟨"Q2", ["a", "b", "c", "d"], 2, "so"⟩

/-- A freshly started session of user 11 in tournament 7. -/
def sessionS : QuizSession := initialSession 11 7 [q0, q1] 0 300

/-- Store containing only the started session, under id 1. -/
def dbS : DB :=
  { tournaments := [], quiz_sessions := [(1, sessionS)], tournament_entries := [],
    wallet_balances := [], wallet_transactions := [], scheduled_settlements := [] }

/-- The same session after completion: score 2, end time and duration 42. -/
def sessionCompleted : QuizSession :=
  { sessionS with status := SessionStatus.completed, score := 2,
                  end_time := some 42, time_taken := some 42 }

/-- Store containing only the completed session, under id 1. -/
def dbCompleted : DB :=
  { tournaments := [], quiz_sessions := [(1, sessionCompleted)], tournament_entries := [],
    wallet_balances := [], wallet_transactions := [], scheduled_settlements := [] }

/-- Combined state: the started durable session 1 together with its active
in-memory websocket session, one second before timeout. -/
def worldT : World :=
  { db := dbS, ws_sessions := [(1, ⟨11, 0, 2, 1, WSStatus.active⟩)] }

/-- Empty registry. -/
def reg0 : RegistryState := ⟨[], [], []⟩

/-- User 5 connects as administrator over websocket 1. -/
def reg1 : RegistryState := connect_user reg0 5 Role.admin 1

/-- User 5 joins tournament room 3. -/
def reg2 : RegistryState := (join_tournament_room reg1 5 3).1

/-- User 5 reconnects as administrator over websocket 2, superseding
websocket 1. -/
def reg3 : RegistryState := connect_user reg2 5 Role.admin 2

/-- Registry with user 5 connected as administrator over websocket 9 and a
member of room 3. -/
def regW : RegistryState := ⟨[(5, 9)], [(3, [9])], [9]⟩

/-! Shared lemmas about the scoring invariant. -/

theorem matchCount_nil (qs : List Question) : matchCount [] qs = 0 := by
  cases qs <;> rfl

theorem matchCount_replicate_none (k : ℕ) (qs : List Question) :
    matchCount (List.replicate k none) qs = 0 := by
  induction k generalizing qs with
  | zero => simpa using matchCount_nil qs
  | succ k ih =>
    cases qs with
    | nil => rfl
    | cons q qs => simp [List.replicate_succ, matchCount, slotMatches, ih]

theorem matchCount_pad (as : List (Option AnswerRecord)) (k : ℕ) (qs : List Question) :
    matchCount (as ++ List.replicate k none) qs = matchCount as qs := by
  induction as generalizing qs with
  | nil => simpa using matchCount_replicate_none k qs
  | cons a as ih =>
    cases qs with
    | nil => rfl
    | cons q qs => simp [matchCount, ih]

theorem matchCount_set (as : List (Option AnswerRecord)) (qs : List Question) (i : ℕ)
    (r : AnswerRecord) (hi : i < as.length) (hq : i < qs.length)
    (hnone : as.getD i none = none) :
    matchCount (as.set i (some r)) qs
      = matchCount as qs + (if slotMatches (some r) (qs.getD i defaultQuestion) then 1 else 0) := by
  induction as generalizing i qs with
  | nil => simp at hi
  | cons a as ih =>
    cases qs with
    | nil => simp at hq
    | cons q qs =>
      cases i with
      | zero =>
        have ha : a = none := by simpa using hnone
        subst ha
        simp only [List.set_cons_zero, matchCount, List.getD_cons_zero, slotMatches]
        by_cases hb : (r.answer == q.correct_answer) = true <;> simp [hb, Nat.add_comm]
      | succ i =>
        have hi2 : i < as.length := by simpa using hi
        have hq2 : i < qs.length := by simpa using hq
        have hnone2 : as.getD i none = none := by simpa using hnone
        simp only [List.set_cons_succ, matchCount, List.getD_cons_succ]
        rw [ih qs i hi2 hq2 hnone2, Nat.add_assoc]

theorem submitAnswerSession_ok_inv (s : QuizSession) (qi ans tt : ℕ)
    (r : QuizSession × AnswerResponse × Bool)
    (h : submitAnswerSession s qi ans tt = .ok r)
    (hinv : s.score = matchCount s.answers s.questions) :
    r.1.score = matchCount r.1.answers r.1.questions := by
  unfold submitAnswerSession at h
  split at h
  · exact absurd h (by simp)
  · split at h
    · exact absurd h (by simp)
    · split at h
      · exact absurd h (by simp)
      · rename_i hstat hlen hslot
        obtain ⟨s2, resp, comp⟩ := r
        have hq : qi < s.questions.length := Nat.lt_of_not_le hlen
        have hilen : qi < (padAnswers s.answers qi).length := by
          simp only [padAnswers, List.length_append, List.length_replicate]
          omega
        have hnone : (padAnswers s.answers qi).getD qi none = none :=
          Option.not_isSome_iff_eq_none.mp hslot
        injection h with h
        injection h with h1 h2
        subst h1
        dsimp only
        rw [matchCount_set _ _ _ _ hilen hq hnone]
        simp only [padAnswers]
        rw [matchCount_pad, ← hinv]
        by_cases hb : ans = (s.questions[qi]?.getD defaultQuestion).correct_answer <;>
          simp [slotMatches, hb]

theorem submissionStep_inv (s : QuizSession) (sub : ℕ × ℕ × ℕ)
    (hinv : s.score = matchCount s.answers s.questions) :
    (match submitAnswerSession s sub.1 sub.2.1 sub.2.2 with
      | .ok r => r.1
      | .error _ => s).score
      = matchCount
          (match submitAnswerSession s sub.1 sub.2.1 sub.2.2 with
            | .ok r => r.1
            | .error _ => s).answers
          (match submitAnswerSession s sub.1 sub.2.1 sub.2.2 with
            | .ok r => r.1
            | .error _ => s).questions := by
  rcases h : submitAnswerSession s sub.1 sub.2.1 sub.2.2 with e | r
  · simpa using hinv
  · simpa using submitAnswerSession_ok_inv s sub.1 sub.2.1 sub.2.2 r h hinv

theorem runSubmissions_inv (subs : List (ℕ × ℕ × ℕ)) (s : QuizSession)
    (hinv : s.score = matchCount s.answers s.questions) :
    (runSubmissions s subs).score
      = matchCount (runSubmissions s subs).answers (runSubmissions s subs).questions := by
  induction subs generalizing s with
  | nil => simpa [runSubmissions] using hinv
  | cons sub subs ih =>
    simp only [runSubmissions, List.foldl_cons]
    exact ih _ (submissionStep_inv s sub hinv)

/-! Shared lemmas about the stable descending sort of the settlement. -/

theorem insertByScoreDesc_perm (e : TournamentEntry) (m : List TournamentEntry) :
    (insertByScoreDesc e m).Perm (e :: m) := by
  induction m with
  | nil => simp [insertByScoreDesc]
  | cons y ys ihy =>
    simp only [insertByScoreDesc]
    split
    · exact List.Perm.refl _
    · exact (ihy.cons y).trans (List.Perm.swap e y ys)

theorem sortByScoreDesc_perm (l : List TournamentEntry) : (sortByScoreDesc l).Perm l := by
  induction l with
  | nil => simp [sortByScoreDesc]
  | cons x xs ih =>
    simp only [sortByScoreDesc, List.foldr_cons]
    exact (insertByScoreDesc_perm x _).trans (ih.cons x)

theorem insertByScoreDesc_pairwise (e : TournamentEntry) (m : List TournamentEntry)
    (h : m.Pairwise (fun a b => scoreVal b ≤ scoreVal a)) :
    (insertByScoreDesc e m).Pairwise (fun a b => scoreVal b ≤ scoreVal a) := by
  induction m with
  | nil => simp [insertByScoreDesc]
  | cons y ys ihy =>
    simp only [insertByScoreDesc]
    split
    · rename_i hy
      refine List.Pairwise.cons ?_ h
      intro z hz
      rcases List.mem_cons.1 hz with rfl | hz
      · exact hy
      · exact le_trans (List.rel_of_pairwise_cons h hz) hy
    · rename_i hy
      refine List.Pairwise.cons ?_ (ihy (List.Pairwise.of_cons h))
      intro z hz
      rcases List.mem_cons.1 ((insertByScoreDesc_perm e ys).mem_iff.1 hz) with rfl | h1
      · exact le_of_lt (lt_of_not_le hy)
      · exact List.rel_of_pairwise_cons h h1

theorem sortByScoreDesc_pairwise (l : List TournamentEntry) :
    (sortByScoreDesc l).Pairwise (fun a b => scoreVal b ≤ scoreVal a) := by
  induction l with
  | nil => simp [sortByScoreDesc]
  | cons x xs ih =>
    simp only [sortByScoreDesc, List.foldr_cons]
    exact insertByScoreDesc_pairwise x _ ih

/-! Shared lemmas about the registry dictionaries. -/

theorem lookupConn_filter_out (l : List (ℕ × ℕ)) (u : ℕ) :
    (l.filter (fun p => p.1 ≠ u)).find? (fun p => p.1 == u) = none := by
  induction l with
  | nil => rfl
  | cons p t ih =>
    by_cases h : p.1 = u
    · simp only [List.filter, h]
      simp [h, ih]
    · simp only [List.filter]
      simp [h, List.find?, ih]

theorem find?_overwrite (l : List (ℕ × ℕ)) (u ws : ℕ)
    (h : l.any (fun p => p.1 == u) = true) :
    ((l.map (fun p => if p.1 == u then (p.1, ws) else p)).find? (fun p => p.1 == u)).map (·.2)
      = some ws := by
  induction l with
  | nil => simp at h
  | cons p t ih =>
    rw [List.map_cons]
    by_cases hp : p.1 = u
    · have hb : (p.1 == u) = true := beq_iff_eq.mpr hp
      rw [if_pos hb]
      simp [List.find?_cons, hb]
    · have hb : (p.1 == u) = false := by simp [hp]
      have h2 : t.any (fun p => p.1 == u) = true := by
        simpa [List.any_cons, hb] using h
      rw [if_neg (by simp [hp])]
      simp only [List.find?_cons, hb]
      exact ih h2

theorem find?_append_key (l : List (ℕ × ℕ)) (u ws : ℕ)
    (h : l.any (fun p => p.1 == u) = false) :
    (((l ++ [(u, ws)]).find? (fun p => p.1 == u)).map (·.2)) = some ws := by
  induction l with
  | nil =>
    simp [List.find?_cons]
  | cons p t ih =>
    have hp : (p.1 == u) = false := by
      rcases hb : (p.1 == u) with _ | _
      · rfl
      · rw [List.any_cons, hb, Bool.true_or] at h
        exact absurd h (by simp)
    have h2 : t.any (fun p => p.1 == u) = false := by
      rw [List.any_cons, hp, Bool.false_or] at h
      exact h
    rw [List.cons_append]
    simp only [List.find?_cons, hp]
    exact ih h2

theorem lookupConn_setConn (l : List (ℕ × ℕ)) (u ws : ℕ) :
    ((setConn l u ws).find? (fun p => p.1 == u)).map (·.2) = some ws := by
  unfold setConn
  split
  · rename_i hany
    exact find?_overwrite l u ws hany
  · rename_i hany
    exact find?_append_key l u ws (by rwa [Bool.not_eq_true] at hany)

theorem lookupConn_mem (s : RegistryState) (u ws : ℕ) (h : lookupConn s u = some ws) :
    ∃ p ∈ s.user_connections, p.2 = ws := by
  unfold lookupConn at h
  cases hf : s.user_connections.find? (fun p => p.1 == u) with
  | none => rw [hf] at h; exact absurd h (by simp)
  | some q =>
    rw [hf] at h
    simp at h
    exact ⟨q, List.mem_of_find?_eq_some hf, h⟩

theorem connect_user_rooms (s : RegistryState) (u : ℕ) (role : Role) (ws : ℕ) :
    (connect_user s u role ws).tournament_connections = s.tournament_connections := by
  cases role <;> simp [connect_user]

theorem connect_user_map (s : RegistryState) (u : ℕ) (role : Role) (ws : ℕ) :
    (connect_user s u role ws).user_connections = setConn s.user_connections u ws := by
  cases role <;> simp [connect_user]

/-! Claim theorems. -/

/-- Claim C6: after any sequence of submit-answer operations on a freshly
started session, the stored score equals the number of recorded answer
slots whose chosen option equals the correct-answer index of the
corresponding question. -/
theorem score_matches_recorded_answers (u t : ℕ) (qs : List Question) (now dur : ℕ)
    (subs : List (ℕ × ℕ × ℕ)) :
    (runSubmissions (initialSession u t qs now dur) subs).score
      = matchCount (runSubmissions (initialSession u t qs now dur) subs).answers
          (runSubmissions (initialSession u t qs now dur) subs).questions :=
  runSubmissions_inv subs _ (by simpa [initialSession] using (matchCount_nil qs).symm)

/-- Claim C8: when start_quiz reorders the options of a question, the
recomputed correct index is consistent: the option stored at the new
correct index equals the option at the original correct index. -/
theorem shuffle_correct_index_consistent (original shuffled : List String) (c : ℕ)
    (hperm : shuffled.Perm original) (hc : c < original.length) :
    shuffled.getD (recomputeCorrectIndex shuffled original c) "" = original.getD c "" := by
  have hx : original.getD c "" ∈ original := by
    rw [List.getD_eq_getElem original "" hc]
    exact List.getElem_mem hc
  have hx2 : original.getD c "" ∈ shuffled := hperm.mem_iff.2 hx
  have hlt : shuffled.indexOf (original.getD c "") < shuffled.length :=
    List.indexOf_lt_length.2 hx2
  unfold recomputeCorrectIndex
  rw [List.getD_eq_getElem shuffled "" hlt, List.getElem_indexOf hlt]

/-- Witness for the consistency of the recomputed correct index, at the
shuffle taking [a, b, c, d] to [c, a, d, b] with original correct index 2. -/
theorem shuffle_correct_index_consistent_witness :
    (["c", "a", "d", "b"] : List String).Perm ["a", "b", "c", "d"] ∧
    2 < (["a", "b", "c", "d"] : List String).length ∧
    (["c", "a", "d", "b"] : List String).getD
        (recomputeCorrectIndex ["c", "a", "d", "b"] ["a", "b", "c", "d"] 2) ""
      = (["a", "b", "c", "d"] : List String).getD 2 "" :=
  ⟨by decide, by decide,
   shuffle_correct_index_consistent ["a", "b", "c", "d"] ["c", "a", "d", "b"] 2
     (by decide) (by decide)⟩

/-- Claim C4, amended: settlement ranks the entries in descending order of
final score (the i-th sorted entry receives rank i + 1 and the prize for
position i); entries with equal score are ranked in the order the store
returns them, with no join-time tiebreak. -/
theorem settlement_ranking_sorted (db : DB) (tid : ℕ) :
    (sortByScoreDesc (eligibleEntries db tid)).Pairwise
      (fun a b => scoreVal b ≤ scoreVal a) ∧
    (sortByScoreDesc (eligibleEntries db tid)).Perm (eligibleEntries db tid) ∧
    (∀ (entries : List TournamentEntry) (fee : Money) (i : ℕ),
      (settlementAssignments entries fee)[i]? = (entries[i]?).map
        (fun e => (e, i + 1, prizeForPosition (settlementPrizes entries.length fee) i))) := by
  refine ⟨sortByScoreDesc_pairwise _, sortByScoreDesc_perm _, ?_⟩
  intro entries fee i
  simp only [settlementAssignments, List.getElem?_map, List.getElem?_enum]
  cases entries[i]? <;> simp

/-- Claim C7, amended: invoking complete on a session that is already
completed returns the already-completed acknowledgement, with no state
mutation and no settlement scheduling. -/
theorem complete_on_completed_is_noop (db : DB) (sid uid now : ℕ) (s : QuizSession)
    (h1 : findSession db sid uid = some s) (h2 : s.status = SessionStatus.completed) :
    complete_quiz_internal db sid uid now = .ok (db, CompleteResponse.alreadyCompleted) := by
  unfold complete_quiz_internal
  rw [h1]
  simp [h2]

/-- Witness for the no-op behaviour of complete on an already completed
session, at the concrete completed-session store. -/
theorem complete_on_completed_is_noop_witness :
    findSession dbCompleted 1 11 = some sessionCompleted ∧
    sessionCompleted.status = SessionStatus.completed ∧
    complete_quiz_internal dbCompleted 1 11 100
      = .ok (dbCompleted, CompleteResponse.alreadyCompleted) :=
  ⟨rfl, rfl, complete_on_completed_is_noop dbCompleted 1 11 100 sessionCompleted rfl rfl⟩

/-- Claim C7 counterexample: re-invoking complete on a completed session
whose stored results are score 2 of 2 questions in 42 seconds returns only
the already-completed acknowledgement, which carries none of those
results, refuting that the previously computed results are returned. -/
theorem complete_idempotent_returns_no_results :
    complete_quiz_internal dbCompleted 1 11 100
      = .ok (dbCompleted, CompleteResponse.alreadyCompleted) ∧
    CompleteResponse.resultsOf CompleteResponse.alreadyCompleted = none ∧
    (findSession dbCompleted 1 11).map (fun s => (s.score, s.questions.length, s.time_taken))
      = some (2, 2, some 42) :=
  ⟨rfl, rfl, rfl⟩

/-- Claim C9, amended: disconnect removes the connection of the user from
the user map, the administrator set and every room membership set; connect
with supersede semantics leaves the room membership sets untouched and
only repoints the user map entry at the new websocket. -/
theorem disconnect_and_supersede_semantics :
    (∀ (s : RegistryState) (u : ℕ),
      lookupConn (disconnect_user s u) u = none ∧
      (∀ ws, lookupConn s u = some ws →
        ws ∉ (disconnect_user s u).admin_connections ∧
        ∀ p ∈ (disconnect_user s u).tournament_connections, ws ∉ p.2)) ∧
    (∀ (s : RegistryState) (u : ℕ) (role : Role) (ws : ℕ),
      (connect_user s u role ws).tournament_connections = s.tournament_connections ∧
      lookupConn (connect_user s u role ws) u = some ws) := by
  constructor
  · intro s u
    constructor
    · cases h : lookupConn s u with
      | none =>
        simp only [disconnect_user]
        rw [h]
        exact h
      | some w =>
        simp only [disconnect_user]
        rw [h]
        show (((s.user_connections.filter (fun p => p.1 ≠ u)).find? (fun p => p.1 == u)).map (·.2))
          = none
        rw [lookupConn_filter_out]
        rfl
    · intro ws hws
      cases h : lookupConn s u with
      | none => rw [h] at hws; exact absurd hws (by simp)
      | some w =>
        rw [h] at hws
        have hww : w = ws := by injection hws
        subst hww
        constructor
        · simp [disconnect_user, h, removeSetElem, List.mem_filter]
        · intro p hp
          simp only [disconnect_user, h] at hp
          obtain ⟨q, hq, rfl⟩ := List.mem_map.1 hp
          simp [removeSetElem, List.mem_filter]
  · intro s u role ws
    refine ⟨connect_user_rooms s u role ws, ?_⟩
    unfold lookupConn
    rw [connect_user_map]
    exact lookupConn_setConn s.user_connections u ws

/-- Witness for the disconnect cleanup and supersede semantics, at a
registry with one administrator connection that is a member of one room. -/
theorem disconnect_and_supersede_semantics_witness :
    lookupConn regW 5 = some 9 ∧
    lookupConn (disconnect_user regW 5) 5 = none ∧
    9 ∉ (disconnect_user regW 5).admin_connections ∧
    (∀ p ∈ (disconnect_user regW 5).tournament_connections, 9 ∉ p.2) ∧
    (connect_user regW 5 Role.user 10).tournament_connections = regW.tournament_connections ∧
    lookupConn (connect_user regW 5 Role.user 10) 5 = some 10 :=
  ⟨by decide,
   (disconnect_and_supersede_semantics.1 regW 5).1,
   ((disconnect_and_supersede_semantics.1 regW 5).2 9 (by decide)).1,
   ((disconnect_and_supersede_semantics.1 regW 5).2 9 (by decide)).2,
   (disconnect_and_supersede_semantics.2 regW 5 Role.user 10).1,
   (disconnect_and_supersede_semantics.2 regW 5 Role.user 10).2⟩

/-- Claim C9 counterexample: user 5 connects as administrator over
websocket 1, joins room 3, then reconnects over websocket 2. The
superseded websocket 1 is still a member of room 3 and of the
administrator set although it is no longer the live connection of any
user, refuting the claimed membership invariant. -/
theorem supersede_leaves_stale_membership :
    roomMembers reg3 3 = [1] ∧
    reg3.user_connections = [(5, 2)] ∧
    reg3.admin_connections = [1, 2] ∧
    isLive reg3 1 = false ∧
    (∀ u, lookupConn reg3 u ≠ some 1) := by
  refine ⟨by decide, by decide, by decide, by decide, ?_⟩
  intro u h
  obtain ⟨p, hp, hv⟩ := lookupConn_mem reg3 u 1 h
  have hred : reg3.user_connections = [(5, 2)] := by decide
  rw [hred] at hp
  have hp2 : p = (5, 2) := List.mem_singleton.1 hp
  subst hp2
  exact absurd hv (by decide)

/-- Claim C2, code divergence: in the combined state worldT the durable
session 1 is Started and its websocket countdown expires. The timer marks
only the in-memory session completed and pushes a quiz_ended message with
reason time_up; the durable store is untouched, so the session is still
Started with no end time and no settlement has been scheduled — the forced
complete operation the claim describes never happens. -/
theorem quiz_timer_timeout_no_finalization :
    (runQuizTimer worldT 1).1.db = worldT.db ∧
    (runQuizTimer worldT 1).1.db.scheduled_settlements = [] ∧
    ((findSession (runQuizTimer worldT 1).1.db 1 11).map (·.status)
      = some SessionStatus.started) ∧
    ((findSession (runQuizTimer worldT 1).1.db 1 11).map (·.end_time) = some none) ∧
    ((runQuizTimer worldT 1).1.ws_sessions.map (fun p => (p.1, p.2.status))
      = [(1, WSStatus.completed)]) ∧
    (runQuizTimer worldT 1).2 = [⟨"time_update", none⟩, ⟨"quiz_ended", some "time_up"⟩] :=
  ⟨rfl, rfl, rfl, rfl, rfl, rfl⟩

/-- Claim C5, code divergence: each validation failure of submit_answer is
raised as a 404/400 HTTPException inside the try block, but the blanket
except-Exception handler catches it and re-raises with status 500, so the
caller receives a server error, not the 4xx client error the claim states.
The distinct detail strings and the absence of any state change on the
error paths are visible in the returned values. -/
theorem submit_answer_errors_surfaced_as_500 :
    submit_answer dbS 99 11 0 1 5 50 = .error (.serverError "Quiz session not found") ∧
    (HTTPError.serverError "Quiz session not found").statusCode = 500 ∧
    submit_answer dbCompleted 1 11 0 1 5 50
      = .error (.serverError "Quiz session is not active") ∧
    submit_answer dbS 1 11 5 1 5 50 = .error (.serverError "Invalid question index") ∧
    (submit_answer dbS 1 11 0 1 5 50 >>= fun r => submit_answer r.1 1 11 0 2 5 60)
      = .error (.serverError "Question already answered") :=
  ⟨rfl, rfl, rfl, rfl, rfl⟩

/-- Claim C1, code divergence: settlement has no settlement flag. In the
two-finisher store dbTwo, the first run credits the winner 23.4 with one
transaction per recipient; invoking settlement again for the same
tournament credits every prize recipient a second time (the winner ends at
46.8 with four transactions in total), refuting that re-invocation
performs no further wallet credits. -/
theorem settlement_reentry_double_credits :
    walletOf (calculate_tournament_results dbTwo 7) 11 = 23.4 ∧
    (calculate_tournament_results dbTwo 7).wallet_transactions.length = 2 ∧
    walletOf (calculate_tournament_results (calculate_tournament_results dbTwo 7) 7) 11 = 46.8 ∧
    (calculate_tournament_results (calculate_tournament_results dbTwo 7) 7).wallet_transactions.length = 4 := by
  refine ⟨?_, ?_, ?_, ?_⟩ <;>
    norm_num [calculate_tournament_results, sortByScoreDesc, insertByScoreDesc,
      eligibleEntries, scoreVal, settlementAssignments, settlementPrizes, prizeForPosition,
      applyAssignment, creditWallet, walletOf, dbTwo, entryOf, tournamentT,
      List.enum, List.enumFrom, List.find?, List.filter, List.isEmpty]

/-- Claim C3: the settlement pool is 0.6 times the collected fees (entry
fee times finisher count) and the prize shares are 50, 30 and 20 percent
of that pool for positions 1 to 3, zero beyond; on the five-finisher
fee-39 store the written prizes are [58.5, 35.1, 23.4, 0, 0] at ranks 1-5. -/
theorem settlement_prize_shares :
    (∀ (fee : Money) (k : ℕ),
      settlementPrizes k fee =
        [0.5 * (0.6 * (fee * k)), 0.3 * (0.6 * (fee * k)), 0.2 * (0.6 * (fee * k))]) ∧
    (∀ (prizes : List Money) (i : ℕ), prizeForPosition prizes (3 + i) = 0) ∧
    ((calculate_tournament_results dbFive 7).tournament_entries.map
        (fun e => (e.rank, e.prize_amount))
      = [(some 1, some 58.5), (some 2, some 35.1), (some 3, some 23.4),
         (some 4, some 0), (some 5, some 0)]) := by
  refine ⟨?_, ?_, ?_⟩
  · intro fee k
    simp only [settlementPrizes, List.cons.injEq, and_true]
    refine ⟨by ring, by ring, by ring⟩
  · intro prizes i
    rw [prizeForPosition, if_neg (by omega)]
  · norm_num [calculate_tournament_results, sortByScoreDesc, insertByScoreDesc,
      eligibleEntries, scoreVal, settlementAssignments, settlementPrizes, prizeForPosition,
      applyAssignment, creditWallet, walletOf, dbFive, entryOf, tournamentT,
      List.enum, List.enumFrom, List.find?, List.filter, List.isEmpty]

/-- Claim C4 counterexample: two entries tied at score 18 where the store
returns the later joiner (joined_at 10) first. Settlement gives the later
joiner rank 1 and the earlier joiner (joined_at 2) rank 2, refuting the
claimed earlier-join tiebreak: the sort of the settlement orders by
final_score only. -/
theorem settlement_tie_ignores_join_time :
    ((calculate_tournament_results dbTie 7).tournament_entries.map
        (fun e => (e.id, e.joined_at, e.final_score, e.rank)))
      = [(1, 10, some 18, some 1), (2, 2, some 18, some 2)] := by
  norm_num [calculate_tournament_results, sortByScoreDesc, insertByScoreDesc,
    eligibleEntries, scoreVal, settlementAssignments, settlementPrizes, prizeForPosition,
    applyAssignment, creditWallet, walletOf, dbTie, entryOf, tournamentT,
    List.enum, List.enumFrom, List.find?, List.filter, List.isEmpty]

/-- Claim C10, amended: with a single finisher only the 50 percent share is
paid, with two finishers the 50 and 30 percent shares; the total paid out
is strictly below the pool whenever the entry fee is positive (with a zero
entry fee both are zero). The concrete one-finisher fee-39 settlement pays
exactly 11.7, half of the 23.4 pool, in one wallet transaction. -/
theorem short_tournament_prize_shares :
    (∀ fee : Money, prizeForPosition (settlementPrizes 1 fee) 0 = 0.5 * (0.6 * (fee * 1))) ∧
    (∀ fee : Money,
      prizeForPosition (settlementPrizes 2 fee) 0 = 0.5 * (0.6 * (fee * 2)) ∧
      prizeForPosition (settlementPrizes 2 fee) 1 = 0.3 * (0.6 * (fee * 2))) ∧
    (∀ (k : ℕ) (fee : Money), 0 < fee → 0 < k → k < 3 →
      distributedTotal k fee < 0.6 * (fee * k)) ∧
    ((calculate_tournament_results dbOne 7).tournament_entries.map
        (fun e => (e.rank, e.prize_amount)) = [(some 1, some 11.7)] ∧
      walletOf (calculate_tournament_results dbOne 7) 11 = 11.7 ∧
      (calculate_tournament_results dbOne 7).wallet_transactions.length = 1) := by
  refine ⟨?_, ?_, ?_, ?_⟩
  · intro fee
    simp [settlementPrizes, prizeForPosition]
    ring
  · intro fee
    constructor
    · simp [settlementPrizes, prizeForPosition]
      ring
    · simp [settlementPrizes, prizeForPosition]
      ring
  · intro k fee hf hk hk3
    interval_cases k
    · have hd : distributedTotal 1 fee = fee * 0.6 * 0.5 := by
        simp [distributedTotal, settlementPrizes, prizeForPosition, List.range_succ]
      rw [hd]
      push_cast
      nlinarith [hf]
    · have hd : distributedTotal 2 fee = 2 * fee * 0.6 * 0.5 + 2 * fee * 0.6 * 0.3 := by
        simp [distributedTotal, settlementPrizes, prizeForPosition, List.range_succ]
      rw [hd]
      push_cast
      nlinarith [hf]
  · refine ⟨?_, ?_, ?_⟩ <;>
      norm_num [calculate_tournament_results, sortByScoreDesc, insertByScoreDesc,
        eligibleEntries, scoreVal, settlementAssignments, settlementPrizes, prizeForPosition,
        applyAssignment, creditWallet, walletOf, dbOne, entryOf, tournamentT,
        List.enum, List.enumFrom, List.find?, List.filter, List.isEmpty]

/-- Witness for the short-tournament prize distribution, at entry fee 39
with one finisher. -/
theorem short_tournament_prize_shares_witness :
    (0 : ℚ) < 39 ∧ (0 : ℕ) < 1 ∧ (1 : ℕ) < 3 ∧
    distributedTotal 1 39 < 0.6 * ((39 : ℚ) * ((1 : ℕ) : ℚ)) :=
  ⟨by norm_num, by norm_num, by norm_num,
   short_tournament_prize_shares.2.2.1 1 39 (by norm_num) (by norm_num) (by norm_num)⟩

/-- Claim C10 counterexample: with entry fee 0 and one finisher (tournament
creation validates no fee positivity), the pool is 0 and the total
distributed is also 0 — not strictly less than the pool. The settlement
writes prize 0 and performs no wallet transaction. -/
theorem zero_fee_distribution_not_strict :
    distributedTotal 1 0 = 0.6 * ((0 : ℚ) * ((1 : ℕ) : ℚ)) ∧
    ¬ distributedTotal 1 0 < 0.6 * ((0 : ℚ) * ((1 : ℕ) : ℚ)) ∧
    (calculate_tournament_results dbZeroFee 7).wallet_transactions = [] ∧
    ((calculate_tournament_results dbZeroFee 7).tournament_entries.map
      (fun e => (e.rank, e.prize_amount)) = [(some 1, some 0)]) := by
  refine ⟨?_, ?_, ?_, ?_⟩ <;>
    norm_num [calculate_tournament_results, sortByScoreDesc, insertByScoreDesc,
      eligibleEntries, scoreVal, settlementAssignments, settlementPrizes, prizeForPosition,
      applyAssignment, creditWallet, walletOf, dbZeroFee, entryOf, tournamentZero,
      distributedTotal, List.range_succ,
      List.enum, List.enumFrom, List.find?, List.filter, List.isEmpty]

end Quizbaaji
